import Mathlib

/-!
Shallow embedding of `examples/bbr-tests/bulk.cc`, the ns-3.27 BBR-vs-Cubic
bulk-transfer experiment driver, together with theorems about its
parameter-derivation, topology-delay, stack-configuration and reporting logic.

Machine arithmetic conventions used throughout:
* C++ `int` values are modelled as `ℤ`; C++ `int` division truncates toward
  zero and is modelled by `Int.tdiv`.
* The C++ `double` experiment multiplier `bdp` is modelled exactly as `ℚ`;
  conversion from `double` to `int` truncates toward zero and is modelled by
  `ratTrunc` on the exact rational value.
* C++ `unsigned`/`size_t` loop indices are modelled as `ℕ`.
* Operations that are undefined behaviour in the C++ source (division by
  zero, out-of-bounds `std::vector` access, `*std::max_element` of an empty
  range) are modelled by `Option`, with `none` marking the undefined case.
-/

namespace BulkExperiment

/-- Protocol variants, from `enum TCP_PROTOCOL { BBR, CUBIC }` (bulk.cc:44). -/
inductive TCP_PROTOCOL where
  | BBR
  | CUBIC
deriving DecidableEq, Repr

/-- Per-flow record, from `typedef struct { TCP_PROTOCOL prot; int rtt; } flow_info`
(bulk.cc:46-49). -/
structure flow_info where
  prot : TCP_PROTOCOL
  rtt : ℤ
deriving DecidableEq, Repr

/-- Hard-coded RTT set: `std::vector<int> rtts { 20, 50, 80 }` (bulk.cc:67). -/
def defaultRtts : List ℤ := [20, 50, 80]

/-- Default flow pattern: `std::string flows = "BCBCBC"` (bulk.cc:66). -/
def defaultFlows : List Char := ['B', 'C', 'B', 'C', 'B', 'C']

/-- Fixed packet size in bytes: `int packetSize = 1000` (bulk.cc:69). -/
def PACKET_SIZE : ℤ := 1000

/-- Bottleneck (router-to-router) one-way delay in ms, from
`#define R_TO_R_DELAY "1ms"` (bulk.cc:39). -/
def R_TO_R_DELAY_MS : ℤ := 1

/-- Truncation of an exact rational toward zero, modelling the C++
`double` → `int` conversion (`Int.tdiv` truncates toward zero and `q` is in
lowest terms with positive denominator). -/
def ratTrunc (q : ℚ) : ℤ :=
  q.num.tdiv q.den

/-- Floor of an exact rational, computable by the kernel (`Int.fdiv` is floor
division and the denominator is positive). -/
def ratFloor (q : ℚ) : ℤ :=
  q.num.fdiv q.den

/-- Models `int maxRtt = *std::max_element(rtts.begin(), rtts.end())`
(bulk.cc:72) for a non-empty vector; on an empty vector the source
dereferences the end iterator (undefined behaviour), modelled here as 0 and
excluded by hypotheses wherever it matters. -/
def maxRtt : List ℤ → ℤ
  | [] => 0
  | r :: rs => rs.foldl max r

/-- Models `int queueSizeBytes = bdp * bandwidth * maxRtt * 1000 / 8`
(bulk.cc:80): the right-hand side is evaluated in `double` arithmetic
(exact rational here) and then truncated toward zero by the `int` conversion. -/
def queueSizeBytes (bdp : ℚ) (bandwidth : ℤ) (rtts : List ℤ) : ℤ :=
  ratTrunc (bdp * bandwidth * maxRtt rtts * 1000 / 8)

/-- Models `int queueSizePackets = queueSizeBytes / packetSize` (bulk.cc:81),
the bottleneck queue capacity in packets (spec: `QueueSizingPolicy.computeCapacityPackets`). -/
def computeCapacityPackets (bdp : ℚ) (bandwidth : ℤ) (rtts : List ℤ) (packetSize : ℤ) : ℤ :=
  (queueSizeBytes bdp bandwidth rtts).tdiv packetSize

/-- Token-to-variant map, from `flows[i] == 'B' ? BBR : CUBIC` (bulk.cc:86):
the character `B` selects BBR and every other character selects CUBIC. -/
def mapToken (c : Char) : TCP_PROTOCOL :=
  if c = 'B' then TCP_PROTOCOL.BBR else TCP_PROTOCOL.CUBIC

/-- The RTT-group index `i / (nSender / rtts.size())` of bulk.cc:86, as a
function of the pattern length, the RTT-set size and the flow index. -/
def rttIndex (nSender k i : ℕ) : ℕ :=
  i / (nSender / k)

/-- One iteration of the derivation loop (bulk.cc:85-87) at flow index `i`:
`flow_infos[i] = flow_info { flows[i] == 'B' ? BBR : CUBIC, rtts[i / (nSender / rtts.size())] }`.
Returns `none` where the C++ statement is undefined behaviour: when the group
size `nSender / rtts.size()` is zero (division by zero, which also covers an
empty RTT vector) or when the group index falls outside the RTT vector
(unchecked `std::vector::operator[]`). -/
def flowInfoAt (flows : List Char) (rtts : List ℤ) (i : ℕ) : Option flow_info :=
  if flows.length / rtts.length = 0 then none
  else (rtts[rttIndex flows.length rtts.length i]?).map
    (fun r => { prot := mapToken (flows.getD i 'C'), rtt := r })

/-- Runs the derivation loop over a given list of flow indices, failing as soon
as one iteration is undefined. -/
def deriveFrom (flows : List Char) (rtts : List ℤ) : List ℕ → Option (List flow_info)
  | [] => some []
  | i :: is =>
    match flowInfoAt flows rtts i, deriveFrom flows rtts is with
    | some fi, some rest => some (fi :: rest)
    | _, _ => none

/-- The full flow-plan derivation of bulk.cc:83-87 (spec: `FlowPlan.derive`):
the loop body runs for every `i` in `[0, nSender)` where `nSender` is the
pattern length; an empty pattern runs no iterations at all. -/
def derive (flows : List Char) (rtts : List ℤ) : Option (List flow_info) :=
  deriveFrom flows rtts (List.range flows.length)

/-- Access-link one-way delay in ms assigned to both the sender-side and the
receiver-side access link of a flow:
`std::string delay = std::to_string(flow_infos[i].rtt / 2) + "ms"` (bulk.cc:146),
applied to both `p2p.Install(s_to_r0)` and `p2p.Install(r1_to_c)`
(bulk.cc:152, 155); C++ `int` division truncates toward zero. -/
def accessDelayMs (rtt : ℤ) : ℤ :=
  rtt.tdiv 2

/-- End-to-end round-trip time (ms) of a flow whose `flow_info.rtt` field is
`rtt`: twice the one-way sum of the sender access-link delay, the bottleneck
delay and the receiver access-link delay, on the topology of bulk.cc:130-158. -/
def e2eRttMs (rtt : ℤ) : ℤ :=
  2 * (accessDelayMs rtt + R_TO_R_DELAY_MS + accessDelayMs rtt)

/-- Models C++ `std::to_string(double)` (used at bulk.cc:265 on `bdp`): fixed
six-decimal formatting of the value. On the exact rational value the scaled
integer is rounded half away from zero, which agrees with the printf `%f`
contract whenever the value is not an exact decimal tie, in particular on all
exactly-representable inputs such as integers. -/
def to_string_double (q : ℚ) : String :=
  (if q < 0 then "-" else "") ++
    toString (ratFloor (|q| * 1000000 + 1 / 2) / 1000000) ++ "." ++
    (toString (1000000 + ratFloor (|q| * 1000000 + 1 / 2) % 1000000)).drop 1

/-- The name of the output artifact:
`outputFile.open(flows + "_" + std::to_string(bdp))` (bulk.cc:265). -/
def outputFileName (flows : String) (bdp : ℚ) : String :=
  flows ++ "_" ++ to_string_double bdp

/-- The content written by the reporting loop (bulk.cc:269-277): for each flow
in index order, the rendered throughput followed by one space
(`outputFile << tput << " "`), starting from an empty file. -/
def outputContent (vals : List String) : String :=
  vals.foldl (fun acc v => acc ++ v ++ " ") ""

/-- Modelled from the spec: the section-6 output-artifact contract, i.e. the
space-separated throughput values in flow order with no trailing structure.
Declared for comparison with `outputContent`, which embeds the source loop. -/
def specContent (vals : List String) : String :=
  match vals with
  | [] => ""
  | v :: vs => vs.foldl (fun acc w => acc ++ " " ++ w) v

/-- Node identifier in the stack-installation model: `(isReceiver, flowIndex)`;
`(false, i)` is `senderNodes.Get(i)` and `(true, i)` is `receiverNodes.Get(i)`. -/
abbrev NodeId := Bool × ℕ

/-- Modelled from the spec: the ambient simulator configuration state acted on
by `Config::SetDefault` and `InternetStackHelper::Install` (the ns-3 attribute
system belongs to this repository but is not under the provided sources).
`socketType` is the global `ns3::TcpL4Protocol::SocketType` default;
`nodeStacks` records, most recent first, the transport stack installed on each
node, snapshotting the global default at install time — per spec section 4.4,
"a later global default does not retroactively change an earlier per-node
installation". -/
structure SimConfig where
  socketType : TCP_PROTOCOL
  nodeStacks : List (NodeId × TCP_PROTOCOL)
deriving DecidableEq, Repr

/-- Models `Config::SetDefault("ns3::TcpL4Protocol::SocketType", ...)`
(bulk.cc:170, 173). -/
def setDefaultSocketType (c : SimConfig) (p : TCP_PROTOCOL) : SimConfig :=
  { c with socketType := p }

/-- Models `internet.Install(node)` (bulk.cc:178-179): the node receives the
transport stack selected by the current global default. -/
def installInternet (c : SimConfig) (n : NodeId) : SimConfig :=
  { c with nodeStacks := (n, c.socketType) :: c.nodeStacks }

/-- Looks up the stack installed on a node (most recent installation wins). -/
def findStack : List (NodeId × TCP_PROTOCOL) → NodeId → Option TCP_PROTOCOL
  | [], _ => none
  | (m, p) :: es, n => if m = n then some p else findStack es n

/-- The congestion-control stack installed on node `n`, if any. -/
def stackOf (c : SimConfig) (n : NodeId) : Option TCP_PROTOCOL :=
  findStack c.nodeStacks n

/-- The Configuring loop of bulk.cc:166-180 starting at flow index `start`:
for each flow in order, set the global socket-type default to the flow's
variant (the `switch` on `flow_infos[i].prot`), then install the Internet
stack on the flow's sender node and on its receiver node. -/
def configureFrom (prots : List TCP_PROTOCOL) (start : ℕ) (c : SimConfig) : SimConfig :=
  match prots with
  | [] => c
  | p :: ps =>
    configureFrom ps (start + 1)
      (installInternet (installInternet (setDefaultSocketType c p) (false, start)) (true, start))

/-- The full Configuring loop of bulk.cc:166-180, over the per-flow protocol
variants in flow index order. -/
def configureStacks (prots : List TCP_PROTOCOL) (c : SimConfig) : SimConfig :=
  configureFrom prots 0 c

end BulkExperiment

namespace BulkExperiment

/-! ### Arithmetic helper lemmas -/

/-- Truncation toward zero agrees with the floor on nonnegative rationals. -/
theorem ratTrunc_eq_floor (q : ℚ) (h : 0 ≤ q) : ratTrunc q = ⌊q⌋ := by
  unfold ratTrunc
  rw [Rat.floor_def]
  exact Int.tdiv_eq_ediv (Rat.num_nonneg.mpr h) (Int.natCast_nonneg q.den)

/-- The executable rational floor agrees with the mathematical floor. -/
theorem ratFloor_eq_floor (q : ℚ) : ratFloor q = ⌊q⌋ := by
  unfold ratFloor
  rw [Rat.floor_def]
  exact Int.fdiv_eq_ediv q.num (Int.natCast_nonneg q.den)

/-- Truncation of an integer value is the integer itself. -/
theorem ratTrunc_intCast (z : ℤ) : ratTrunc ((z : ℚ)) = z := by
  unfold ratTrunc
  rw [Rat.num_intCast, Rat.den_intCast]
  simp [Int.tdiv_one]

/-- Truncation of a nonpositive rational is nonpositive. -/
theorem ratTrunc_nonpos {q : ℚ} (h : q ≤ 0) : ratTrunc q ≤ 0 := by
  unfold ratTrunc
  have hnum : q.num ≤ 0 := Rat.num_nonpos.mpr h
  have h2 : 0 ≤ (-q.num).tdiv q.den :=
    Int.tdiv_nonneg (by omega) (Int.natCast_nonneg q.den)
  rw [Int.neg_tdiv] at h2
  omega

/-- Truncating integer division by a nonnegative integer preserves nonpositivity. -/
theorem tdiv_nonpos_of_nonpos {a b : ℤ} (ha : a ≤ 0) (hb : 0 ≤ b) : a.tdiv b ≤ 0 := by
  have h2 : 0 ≤ (-a).tdiv b := Int.tdiv_nonneg (by omega) hb
  rw [Int.neg_tdiv] at h2
  omega

/-- Dividing the floor by a positive integer computes the floor of the quotient. -/
theorem floor_rat_div_int (q : ℚ) (p : ℤ) (hp : 0 < p) : ⌊q / (p : ℚ)⌋ = ⌊q⌋ / p := by
  have hp' : (0 : ℚ) < (p : ℚ) := by exact_mod_cast hp
  apply le_antisymm
  · rw [Int.le_ediv_iff_mul_le hp, Int.le_floor]
    push_cast
    calc (⌊q / (p : ℚ)⌋ : ℚ) * p ≤ q / (p : ℚ) * p :=
          mul_le_mul_of_nonneg_right (Int.floor_le _) (le_of_lt hp')
      _ = q := div_mul_cancel₀ q (ne_of_gt hp')
  · rw [Int.le_floor]
    rw [le_div_iff₀ hp']
    calc ((⌊q⌋ / p : ℤ) : ℚ) * (p : ℚ) = ((⌊q⌋ / p * p : ℤ) : ℚ) := by push_cast; ring
      _ ≤ (⌊q⌋ : ℚ) := by exact_mod_cast Int.ediv_mul_le ⌊q⌋ (ne_of_gt hp)
      _ ≤ q := Int.floor_le q

/-- The two-step integer computation of bulk.cc:80-81 equals the floor of the
exact rational bandwidth-delay-product formula whenever the byte count is
nonnegative and the packet size is positive. -/
theorem capacity_eq_floor (bdp : ℚ) (bw : ℤ) (rtts : List ℤ) (pkt : ℤ)
    (hq : 0 ≤ bdp * bw * maxRtt rtts * 1000 / 8) (hpkt : 0 < pkt) :
    computeCapacityPackets bdp bw rtts pkt = ⌊bdp * bw * maxRtt rtts * 1000 / 8 / (pkt : ℚ)⌋ := by
  unfold computeCapacityPackets queueSizeBytes
  rw [ratTrunc_eq_floor _ hq,
    Int.tdiv_eq_ediv (Int.floor_nonneg.mpr hq) (le_of_lt hpkt),
    floor_rat_div_int _ _ hpkt]

/-- Evaluation rule for the capacity computation when the byte formula has an
exact integer value. -/
theorem computeCapacityPackets_eval (bdp : ℚ) (bw : ℤ) (rtts : List ℤ) (pkt : ℤ) (z : ℤ)
    (h : bdp * bw * maxRtt rtts * 1000 / 8 = (z : ℚ)) :
    computeCapacityPackets bdp bw rtts pkt = z.tdiv pkt := by
  unfold computeCapacityPackets queueSizeBytes
  rw [h, ratTrunc_intCast]

end BulkExperiment

namespace BulkExperiment

/-! ### C1: bottleneck queue capacity versus the floored BDP formula -/

/-- Truncation toward zero of a nonpositive rational is the negated floor of
its negation (on negatives, truncation and floor differ). -/
theorem ratTrunc_neg (q : ℚ) (h : q ≤ 0) : ratTrunc q = -⌊-q⌋ := by
  have h2 : ratTrunc (-q) = ⌊-q⌋ := ratTrunc_eq_floor (-q) (by linarith)
  unfold ratTrunc at h2 ⊢
  rw [Rat.num_neg_eq_neg_num, Rat.den_neg_eq_den, Int.neg_tdiv] at h2
  omega

/-- Evaluation rule for the capacity computation when the byte formula has a
nonpositive value. -/
theorem computeCapacityPackets_eval_neg (bdp : ℚ) (bw : ℤ) (rtts : List ℤ) (pkt : ℤ) (q : ℚ)
    (h : bdp * bw * maxRtt rtts * 1000 / 8 = q) (hq : q ≤ 0) :
    computeCapacityPackets bdp bw rtts pkt = (-⌊-q⌋).tdiv pkt := by
  unfold computeCapacityPackets queueSizeBytes
  rw [h, ratTrunc_neg q hq]

/-- Counterexample to C1: the claim quantifies over every bdp multiplier, but
at `bdp = -1/3`, `bandwidth = 20`, `rtts = {20, 50, 80}` (so `maxRtt = 80`)
and `packetSize = 3` the code of bulk.cc:80-81 truncates toward zero twice
(`-200000/3` bytes become `-66666`, then `-66666 / 3 = -22222` packets),
while the claimed floor formula gives `⌊-200000/9⌋ = -22223`. -/
theorem capacityPackets_formula_counterexample :
    maxRtt defaultRtts = 80 ∧
      computeCapacityPackets (-1/3) 20 defaultRtts 3 = -22222 ∧
      ⌊((-1/3 : ℚ) * 20 * 80 * 1000 / 8 / 3)⌋ = -22223 := by
  have hm : maxRtt defaultRtts = 80 := by decide
  refine ⟨hm, ?_, by norm_num⟩
  have h := computeCapacityPackets_eval_neg (-1/3) 20 defaultRtts 3 (-(200000/3))
    (by rw [hm]; push_cast; norm_num) (by norm_num)
  rw [h]
  have h2 : ⌊(-(-(200000 / 3)) : ℚ)⌋ = 66666 := by norm_num
  rw [h2]
  decide

/-- C1 as amended: for every nonnegative bdp multiplier and bandwidth,
non-empty RTT set with nonnegative maximum, and positive packet size — the
domain on which truncation toward zero agrees with the floor — the bottleneck
queue capacity computed at bulk.cc:80-81 equals
`floor(bdp * bandwidth * maxRtt * 1000 / 8 / packetSize)` on the exact values. -/
theorem capacityPackets_eq_bdp_formula (bdp : ℚ) (bw : ℤ) (rtts : List ℤ) (pkt : ℤ)
    (hbdp : 0 ≤ bdp) (hbw : 0 ≤ bw) (hmax : 0 ≤ maxRtt rtts) (hne : rtts ≠ [])
    (hpkt : 0 < pkt) :
    computeCapacityPackets bdp bw rtts pkt = ⌊bdp * bw * maxRtt rtts * 1000 / 8 / (pkt : ℚ)⌋ := by
  have hbw' : (0 : ℚ) ≤ (bw : ℚ) := by exact_mod_cast hbw
  have hmax' : (0 : ℚ) ≤ ((maxRtt rtts : ℤ) : ℚ) := by exact_mod_cast hmax
  apply capacity_eq_floor
  · apply div_nonneg _ (by norm_num)
    exact mul_nonneg (mul_nonneg (mul_nonneg hbdp hbw') hmax') (by norm_num)
  · exact hpkt

/-- Witness for the amended C1 at the spec's worked example: `bdp = 2`, `bandwidth = 20`,
`rtts = {20, 50, 80}` (so `maxRtt = 80`), `packetSize = 1000` gives exactly
400 packets. -/
theorem capacityPackets_eq_bdp_formula_witness :
    computeCapacityPackets 2 20 defaultRtts 1000 = 400 := by
  rw [capacityPackets_eq_bdp_formula 2 20 defaultRtts 1000 (by norm_num) (by norm_num)
    (by decide) (by decide) (by norm_num)]
  have hm : maxRtt defaultRtts = 80 := by decide
  rw [hm]
  push_cast
  norm_num

end BulkExperiment

namespace BulkExperiment

/-! ### C6: the queue-sizing computation performs no input validation -/

/-- Counterexample to C6: the queue-sizing code of bulk.cc:69-81 contains no
validation at all; with the non-positive bandwidth 0 it produces the capacity
value 0 instead of rejecting the input as a configuration error. -/
theorem capacityPackets_no_reject_counterexample :
    computeCapacityPackets 2 0 defaultRtts 1000 = 0 := by
  have hm : maxRtt defaultRtts = 80 := by decide
  have h := computeCapacityPackets_eval 2 0 defaultRtts 1000 0 (by rw [hm]; push_cast; ring)
  rw [h]
  decide

/-- C6 as amended: the computation is total; for every nonnegative bdp
multiplier, non-positive bandwidth, nonnegative maximum RTT and positive
packet size it produces a (non-positive) capacity value rather than an error. -/
theorem capacityPackets_no_reject (bdp : ℚ) (bw : ℤ) (rtts : List ℤ) (pkt : ℤ)
    (hbdp : 0 ≤ bdp) (hbw : bw ≤ 0) (hmax : 0 ≤ maxRtt rtts) (hpkt : 0 < pkt) :
    computeCapacityPackets bdp bw rtts pkt ≤ 0 := by
  have hbw' : ((bw : ℤ) : ℚ) ≤ 0 := by exact_mod_cast hbw
  have hmax' : (0 : ℚ) ≤ ((maxRtt rtts : ℤ) : ℚ) := by exact_mod_cast hmax
  have hq : bdp * bw * maxRtt rtts * 1000 / 8 ≤ 0 := by
    apply div_nonpos_of_nonpos_of_nonneg _ (by norm_num)
    have h1 : bdp * bw ≤ 0 := mul_nonpos_iff.mpr (Or.inl ⟨hbdp, hbw'⟩)
    have h2 : bdp * bw * maxRtt rtts ≤ 0 := mul_nonpos_iff.mpr (Or.inr ⟨h1, hmax'⟩)
    exact mul_nonpos_iff.mpr (Or.inr ⟨h2, by norm_num⟩)
  unfold computeCapacityPackets queueSizeBytes
  exact tdiv_nonpos_of_nonpos (ratTrunc_nonpos hq) (le_of_lt hpkt)

/-- Witness for the amended C6 at bandwidth -20: a non-positive capacity is
produced. -/
theorem capacityPackets_no_reject_witness :
    computeCapacityPackets 2 (-20) defaultRtts 1000 ≤ 0 :=
  capacityPackets_no_reject 2 (-20) defaultRtts 1000 (by norm_num) (by norm_num)
    (by decide) (by norm_num)

/-! ### C8: monotonicity of the capacity computation -/

/-- C8: for positive argument values, the capacity is monotonically
non-decreasing in the bdp multiplier, in the bandwidth and in the maximum RTT,
and monotonically non-increasing in the packet size. -/
theorem capacityPackets_monotone :
    (∀ bdp bdp' : ℚ, ∀ bw : ℤ, ∀ rtts : List ℤ, ∀ pkt : ℤ,
      0 < bdp → bdp ≤ bdp' → 0 < bw → 0 < maxRtt rtts → 0 < pkt →
      computeCapacityPackets bdp bw rtts pkt ≤ computeCapacityPackets bdp' bw rtts pkt) ∧
    (∀ bdp : ℚ, ∀ bw bw' : ℤ, ∀ rtts : List ℤ, ∀ pkt : ℤ,
      0 < bdp → 0 < bw → bw ≤ bw' → 0 < maxRtt rtts → 0 < pkt →
      computeCapacityPackets bdp bw rtts pkt ≤ computeCapacityPackets bdp bw' rtts pkt) ∧
    (∀ bdp : ℚ, ∀ bw : ℤ, ∀ rtts rtts' : List ℤ, ∀ pkt : ℤ,
      0 < bdp → 0 < bw → 0 < maxRtt rtts → maxRtt rtts ≤ maxRtt rtts' → 0 < pkt →
      computeCapacityPackets bdp bw rtts pkt ≤ computeCapacityPackets bdp bw rtts' pkt) ∧
    (∀ bdp : ℚ, ∀ bw : ℤ, ∀ rtts : List ℤ, ∀ pkt pkt' : ℤ,
      0 < bdp → 0 < bw → 0 < maxRtt rtts → 0 < pkt → pkt ≤ pkt' →
      computeCapacityPackets bdp bw rtts pkt' ≤ computeCapacityPackets bdp bw rtts pkt) := by
  refine ⟨?_, ?_, ?_, ?_⟩
  · intro bdp bdp' bw rtts pkt h1 h2 h3 h4 h5
    have hbw : (0 : ℚ) ≤ (bw : ℚ) := by exact_mod_cast le_of_lt h3
    have hmax : (0 : ℚ) ≤ ((maxRtt rtts : ℤ) : ℚ) := by exact_mod_cast le_of_lt h4
    have hq : 0 ≤ bdp * bw * maxRtt rtts * 1000 / 8 := by
      apply div_nonneg _ (by norm_num)
      exact mul_nonneg (mul_nonneg (mul_nonneg (le_of_lt h1) hbw) hmax) (by norm_num)
    have hq' : 0 ≤ bdp' * bw * maxRtt rtts * 1000 / 8 := by
      apply div_nonneg _ (by norm_num)
      exact mul_nonneg (mul_nonneg (mul_nonneg (le_trans (le_of_lt h1) h2) hbw) hmax)
        (by norm_num)
    rw [capacity_eq_floor _ _ _ _ hq h5, capacity_eq_floor _ _ _ _ hq' h5]
    apply Int.floor_le_floor
    gcongr
  · intro bdp bw bw' rtts pkt h1 h2 h3 h4 h5
    have hbw : (0 : ℚ) ≤ (bw : ℚ) := by exact_mod_cast le_of_lt h2
    have hbw2 : ((bw : ℤ) : ℚ) ≤ ((bw' : ℤ) : ℚ) := by exact_mod_cast h3
    have hmax : (0 : ℚ) ≤ ((maxRtt rtts : ℤ) : ℚ) := by exact_mod_cast le_of_lt h4
    have hq : 0 ≤ bdp * bw * maxRtt rtts * 1000 / 8 := by
      apply div_nonneg _ (by norm_num)
      exact mul_nonneg (mul_nonneg (mul_nonneg (le_of_lt h1) hbw) hmax) (by norm_num)
    have hq' : 0 ≤ bdp * bw' * maxRtt rtts * 1000 / 8 := by
      apply div_nonneg _ (by norm_num)
      exact mul_nonneg (mul_nonneg (mul_nonneg (le_of_lt h1) (le_trans hbw hbw2)) hmax)
        (by norm_num)
    rw [capacity_eq_floor _ _ _ _ hq h5, capacity_eq_floor _ _ _ _ hq' h5]
    apply Int.floor_le_floor
    gcongr
  · intro bdp bw rtts rtts' pkt h1 h2 h3 h4 h5
    have hbw : (0 : ℚ) ≤ (bw : ℚ) := by exact_mod_cast le_of_lt h2
    have hmax : (0 : ℚ) ≤ ((maxRtt rtts : ℤ) : ℚ) := by exact_mod_cast le_of_lt h3
    have hmax2 : ((maxRtt rtts : ℤ) : ℚ) ≤ ((maxRtt rtts' : ℤ) : ℚ) := by exact_mod_cast h4
    have hq : 0 ≤ bdp * bw * maxRtt rtts * 1000 / 8 := by
      apply div_nonneg _ (by norm_num)
      exact mul_nonneg (mul_nonneg (mul_nonneg (le_of_lt h1) hbw) hmax) (by norm_num)
    have hq' : 0 ≤ bdp * bw * maxRtt rtts' * 1000 / 8 := by
      apply div_nonneg _ (by norm_num)
      exact mul_nonneg (mul_nonneg (mul_nonneg (le_of_lt h1) hbw) (le_trans hmax hmax2))
        (by norm_num)
    rw [capacity_eq_floor _ _ _ _ hq h5, capacity_eq_floor _ _ _ _ hq' h5]
    apply Int.floor_le_floor
    gcongr
  · intro bdp bw rtts pkt pkt' h1 h2 h3 h4 h5
    have hbw : (0 : ℚ) ≤ (bw : ℚ) := by exact_mod_cast le_of_lt h2
    have hmax : (0 : ℚ) ≤ ((maxRtt rtts : ℤ) : ℚ) := by exact_mod_cast le_of_lt h3
    have hq : 0 ≤ bdp * bw * maxRtt rtts * 1000 / 8 := by
      apply div_nonneg _ (by norm_num)
      exact mul_nonneg (mul_nonneg (mul_nonneg (le_of_lt h1) hbw) hmax) (by norm_num)
    have hpkt : (0 : ℚ) < (pkt : ℚ) := by exact_mod_cast h4
    have hpkt2 : ((pkt : ℤ) : ℚ) ≤ ((pkt' : ℤ) : ℚ) := by exact_mod_cast h5
    rw [capacity_eq_floor _ _ _ _ hq (lt_of_lt_of_le h4 h5), capacity_eq_floor _ _ _ _ hq h4]
    apply Int.floor_le_floor
    exact div_le_div_of_nonneg_left hq hpkt hpkt2
  
/-- Witness for C8: all four monotonicity directions at concrete inputs. -/
theorem capacityPackets_monotone_witness :
    computeCapacityPackets 1 20 defaultRtts 1000 ≤ computeCapacityPackets 2 20 defaultRtts 1000 ∧
    computeCapacityPackets 2 10 defaultRtts 1000 ≤ computeCapacityPackets 2 20 defaultRtts 1000 ∧
    computeCapacityPackets 2 20 [20] 1000 ≤ computeCapacityPackets 2 20 defaultRtts 1000 ∧
    computeCapacityPackets 2 20 defaultRtts 2000 ≤ computeCapacityPackets 2 20 defaultRtts 1000 :=
  ⟨capacityPackets_monotone.1 1 2 20 defaultRtts 1000 (by norm_num) (by norm_num) (by norm_num)
      (by decide) (by norm_num),
    capacityPackets_monotone.2.1 2 10 20 defaultRtts 1000 (by norm_num) (by norm_num)
      (by norm_num) (by decide) (by norm_num),
    capacityPackets_monotone.2.2.1 2 20 [20] defaultRtts 1000 (by norm_num) (by norm_num)
      (by decide) (by decide) (by norm_num),
    capacityPackets_monotone.2.2.2 2 20 defaultRtts 1000 2000 (by norm_num) (by norm_num)
      (by decide) (by norm_num) (by norm_num)⟩

end BulkExperiment

namespace BulkExperiment

/-! ### Derivation-loop helper lemmas -/

/-- If every requested iteration of the derivation loop is defined, the loop
produces the list of its per-index results. -/
theorem deriveFrom_eq_some (flows : List Char) (rtts : List ℤ) (is : List ℕ)
    (h : ∀ i ∈ is, flowInfoAt flows rtts i ≠ none) :
    deriveFrom flows rtts is =
      some (is.map (fun i => (flowInfoAt flows rtts i).getD ⟨TCP_PROTOCOL.CUBIC, 0⟩)) := by
  induction is with
  | nil => rfl
  | cons j js ih =>
    have hj : flowInfoAt flows rtts j ≠ none := h j (List.mem_cons_self j js)
    obtain ⟨fi, hfi⟩ := Option.ne_none_iff_exists'.mp hj
    have hrest := ih (fun i hi => h i (List.mem_cons_of_mem j hi))
    simp only [deriveFrom, hfi, hrest, List.map_cons, Option.getD_some]

/-- If one requested iteration of the derivation loop is undefined, the whole
loop is undefined. -/
theorem deriveFrom_eq_none (flows : List Char) (rtts : List ℤ) (is : List ℕ) (i : ℕ)
    (hi : i ∈ is) (h : flowInfoAt flows rtts i = none) :
    deriveFrom flows rtts is = none := by
  induction is with
  | nil => simp at hi
  | cons j js ih =>
    rcases List.mem_cons.mp hi with hji | hmem
    · subst hji
      simp only [deriveFrom, h]
    · have hrest := ih hmem
      simp only [deriveFrom, hrest]
      cases flowInfoAt flows rtts j <;> rfl

end BulkExperiment

namespace BulkExperiment

/-! ### C2: flow-plan derivation on valid inputs -/

/-- C2: whenever the pattern length is evenly divisible by the RTT-set size,
the derivation of bulk.cc:83-87 succeeds, produces one flow record per pattern
character, and assigns flow `i` the RTT `rtts[i / (nSender / rtts.size())]`. -/
theorem derive_valid (flows : List Char) (rtts : List ℤ)
    (hdvd : rtts.length ∣ flows.length) :
    ∃ l, derive flows rtts = some l ∧ l.length = flows.length ∧
      ∀ i, i < flows.length →
        (l.getD i ⟨TCP_PROTOCOL.CUBIC, 0⟩).rtt =
          rtts.getD (i / (flows.length / rtts.length)) 0 := by
  by_cases hn : flows.length = 0
  · refine ⟨[], ?_, by simp [hn], by intro i hi; omega⟩
    unfold derive
    rw [hn]
    rfl
  · have hk : rtts.length ≠ 0 := by
      intro h0
      rw [h0] at hdvd
      exact hn (Nat.eq_zero_of_zero_dvd hdvd)
    have hg : 0 < flows.length / rtts.length :=
      Nat.div_pos (Nat.le_of_dvd (Nat.pos_of_ne_zero hn) hdvd) (Nat.pos_of_ne_zero hk)
    have hidx : ∀ i, i < flows.length → rttIndex flows.length rtts.length i < rtts.length := by
      intro i hi
      unfold rttIndex
      apply (Nat.div_lt_iff_lt_mul hg).mpr
      calc i < flows.length := hi
        _ = rtts.length * (flows.length / rtts.length) := by
            rw [Nat.mul_div_cancel' hdvd]
  
    have hsome : ∀ i ∈ List.range flows.length, flowInfoAt flows rtts i ≠ none := by
      intro i hi
      rw [List.mem_range] at hi
      unfold flowInfoAt
      rw [if_neg (by omega), List.getElem?_eq_getElem (hidx i hi)]
      simp
    refine ⟨_, deriveFrom_eq_some flows rtts (List.range flows.length) hsome, ?_, ?_⟩
    · simp
    · intro i hi
      have hlen : i < ((List.range flows.length).map
          (fun i => (flowInfoAt flows rtts i).getD ⟨TCP_PROTOCOL.CUBIC, 0⟩)).length := by
        simpa using hi
      rw [List.getD_eq_getElem _ _ hlen, List.getElem_map, List.getElem_range]
      unfold flowInfoAt
      rw [if_neg (by omega), List.getElem?_eq_getElem (hidx i hi)]
      simp only [Option.map_some', Option.getD_some]
      exact (List.getD_eq_getElem rtts 0 (hidx i hi)).symm

/-- Witness for C2 at the default configuration `flows = "BCBCBC"`,
`rtts = {20, 50, 80}`. -/
theorem derive_valid_witness :
    List.length defaultRtts ∣ List.length defaultFlows ∧
      (∃ l, derive defaultFlows defaultRtts = some l ∧ l.length = defaultFlows.length ∧
        ∀ i, i < defaultFlows.length →
          (l.getD i ⟨TCP_PROTOCOL.CUBIC, 0⟩).rtt =
            defaultRtts.getD (i / (defaultFlows.length / defaultRtts.length)) 0) :=
  ⟨by decide, derive_valid defaultFlows defaultRtts (by decide)⟩

/-! ### C5: unrecognized protocol tokens are not rejected -/

/-- Counterexample to C5: the pattern character `X` maps to no known token,
yet the derivation of bulk.cc:85-87 completes and assigns the flow the CUBIC
variant (the `flows[i] == 'B' ? BBR : CUBIC` fallback); no configuration
error, diagnostic or abort exists anywhere in bulk.cc. -/
theorem unknown_token_assigned_counterexample :
    derive ['X'] [20] = some [⟨TCP_PROTOCOL.CUBIC, 20⟩] := by decide

/-- C5 as amended: every character other than `B` (recognized or not) is
silently assigned the CUBIC variant; no validation occurs. -/
theorem mapToken_unrecognized (c : Char) (h : c ≠ 'B') :
    mapToken c = TCP_PROTOCOL.CUBIC := by
  simp [mapToken, h]

/-- Witness for the amended C5 at the unrecognized token `Q`. -/
theorem mapToken_unrecognized_witness : mapToken 'Q' = TCP_PROTOCOL.CUBIC :=
  mapToken_unrecognized 'Q' (by decide)

/-! ### C7: uneven division drives the RTT lookup out of bounds -/

/-- Counterexample to C7: for the four-flow pattern `BCBC` with the
three-element RTT set, the group size is `4 / 3 = 1` and flow 3 looks up
`rtts[3 / 1] = rtts[3]`, one past the end of the vector: the derivation does
not complete within bounds (modelled as `none`). -/
theorem derive_uneven_counterexample :
    derive ['B', 'C', 'B', 'C'] defaultRtts = none := by decide

/-- C7 as amended: whenever the pattern length exceeds the RTT-set size
without being divisible by it, the RTT lookup `rtts[i / (nSender / |rtts|)]`
leaves the bounds of the RTT set for the trailing `nSender mod |rtts|` flow
indices (the first being `(nSender / |rtts|) * |rtts|`), so the derivation
hits out-of-bounds vector access instead of giving the last group the extra
flows. -/
theorem derive_uneven_out_of_bounds (flows : List Char) (rtts : List ℤ)
    (hlt : rtts.length < flows.length) (hndvd : ¬ rtts.length ∣ flows.length) :
    derive flows rtts = none := by
  by_cases hg0 : flows.length / rtts.length = 0
  · apply deriveFrom_eq_none flows rtts _ 0
    · rw [List.mem_range]
      omega
    · unfold flowInfoAt
      rw [if_pos hg0]
  · have hk : 0 < rtts.length := by
      rcases Nat.eq_zero_or_pos rtts.length with h0 | h
      · rw [h0] at hg0
        simp at hg0
      · exact h
    have hgpos : 0 < flows.length / rtts.length := Nat.pos_of_ne_zero hg0
    have hmod : flows.length % rtts.length ≠ 0 := by
      intro h0
      exact hndvd (Nat.dvd_iff_mod_eq_zero.mpr h0)
    have hdm := Nat.div_add_mod flows.length rtts.length
    have hcomm : flows.length / rtts.length * rtts.length =
        rtts.length * (flows.length / rtts.length) := Nat.mul_comm _ _
    have hi0 : flows.length / rtts.length * rtts.length < flows.length := by omega
    apply deriveFrom_eq_none flows rtts _ (flows.length / rtts.length * rtts.length)
    · rw [List.mem_range]
      exact hi0
    · unfold flowInfoAt
      rw [if_neg hg0]
      have hidx : rttIndex flows.length rtts.length
          (flows.length / rtts.length * rtts.length) = rtts.length := by
        unfold rttIndex
        exact Nat.mul_div_cancel_left rtts.length hgpos
      rw [hidx, List.getElem?_eq_none (le_refl rtts.length)]
      rfl

/-- Witness for the amended C7 at the five-flow pattern `BCBCB` with the
three-element default RTT set. -/
theorem derive_uneven_out_of_bounds_witness :
    derive ['B', 'C', 'B', 'C', 'B'] defaultRtts = none :=
  derive_uneven_out_of_bounds ['B', 'C', 'B', 'C', 'B'] defaultRtts (by decide) (by decide)

/-! ### C10: patterns shorter than the RTT set divide by zero -/

/-- C10: for every non-empty flow pattern shorter than the RTT set, the group
size `nSender / rtts.size()` is zero, so the very first loop iteration of
bulk.cc:85-87 divides by zero and the derivation is undefined; it is
well-defined only under the precondition `nSender >= |rtts|` (or an empty
pattern, which runs no iterations). -/
theorem derive_short_pattern (flows : List Char) (rtts : List ℤ)
    (hne : flows ≠ []) (hlt : flows.length < rtts.length) :
    flows.length / rtts.length = 0 ∧ derive flows rtts = none := by
  have hg : flows.length / rtts.length = 0 := Nat.div_eq_of_lt hlt
  refine ⟨hg, ?_⟩
  apply deriveFrom_eq_none flows rtts _ 0
  · rw [List.mem_range]
    exact List.length_pos.mpr hne
  · unfold flowInfoAt
    rw [if_pos hg]

/-- Witness for C10 at the two-flow pattern `BC` with the three-element
default RTT set. -/
theorem derive_short_pattern_witness :
    List.length ['B', 'C'] / List.length defaultRtts = 0 ∧
      derive ['B', 'C'] defaultRtts = none :=
  derive_short_pattern ['B', 'C'] defaultRtts (by decide) (by decide)

end BulkExperiment

namespace BulkExperiment

/-! ### C3: end-to-end RTT versus the assigned flow RTT -/

/-- Counterexample to C3: with the delay assignment of bulk.cc:145-158 (both
access links of flow `i` get one-way delay `rtt / 2`, the bottleneck link the
fixed 1 ms), a flow whose `flow_info.rtt` is 20 has end-to-end round-trip time
`2 * (10 + 1 + 10) = 42` ms, not 20 ms: the round trip crosses *two* access
links each way, so the claimed invariant fails for every configured RTT. -/
theorem e2eRtt_counterexample : e2eRttMs 20 = 42 ∧ e2eRttMs 20 ≠ 20 := by decide

/-- C3 as amended: for every even assigned RTT, the end-to-end round-trip time
is `2 * rtt + 2` ms — twice the assigned value plus twice the fixed 1 ms
bottleneck delay — rather than the assigned value itself. -/
theorem e2eRtt_double_plus_bottleneck (rtt : ℤ) (h : 2 ∣ rtt) :
    e2eRttMs rtt = 2 * rtt + 2 := by
  obtain ⟨k, hk⟩ := h
  subst hk
  unfold e2eRttMs accessDelayMs R_TO_R_DELAY_MS
  rw [Int.mul_tdiv_cancel_left k (by norm_num)]
  ring

/-- Witness for the amended C3 at the default 20 ms flow RTT. -/
theorem e2eRtt_double_plus_bottleneck_witness : e2eRttMs 20 = 2 * 20 + 2 :=
  e2eRtt_double_plus_bottleneck 20 (by decide)

end BulkExperiment

namespace BulkExperiment

/-! ### C4: output artifact name and content -/

/-- Evaluation of the artifact name for `flows = "BC"`, `bdp = 2`:
`std::to_string(double)` renders with six fixed decimal places. -/
theorem outputFileName_BC2_eval : outputFileName "BC" 2 = "BC_2.000000" := by
  have hf : ratFloor (|(2 : ℚ)| * 1000000 + 1 / 2) = 2000000 := by
    rw [ratFloor_eq_floor]
    norm_num
  unfold outputFileName to_string_double
  rw [hf, if_neg (by norm_num : ¬ ((2 : ℚ) < 0))]
  decide

/-- Counterexample to C4: for `flows = "BC"` and `bdp = 2` the artifact is
named `BC_2.000000` (bulk.cc:265 appends `std::to_string(bdp)` where `bdp` is
a `double`), not `BC_2` as claimed. -/
theorem outputFileName_counterexample :
    outputFileName "BC" 2 = "BC_2.000000" ∧ outputFileName "BC" 2 ≠ "BC_2" := by
  refine ⟨outputFileName_BC2_eval, ?_⟩
  rw [outputFileName_BC2_eval]
  decide

/-- Auxiliary identity for the reporting loop: folding the writes over any
accumulator that already ends in a space produces the space-separated list
followed by one more trailing space. -/
theorem foldl_space_aux (vs : List String) (s : String) :
    vs.foldl (fun acc v => acc ++ v ++ " ") (s ++ " ") =
      vs.foldl (fun acc w => acc ++ " " ++ w) s ++ " " := by
  induction vs generalizing s with
  | nil => rfl
  | cons w ws ih =>
    simp only [List.foldl_cons]
    exact ih (s ++ " " ++ w)

/-- C4 as amended: the artifact is named `<flows>_<bdp rendered with six
decimal places>` (e.g. `BC_2.000000`), and its content is the space-separated
throughput values in flow index order followed by one trailing space (each
loop iteration writes `tput << " "`). -/
theorem outputArtifact_amended :
    outputFileName "BC" 2 = "BC_2.000000" ∧
      ∀ vals : List String, vals ≠ [] →
        outputContent vals = specContent vals ++ " " := by
  refine ⟨outputFileName_BC2_eval, ?_⟩
  intro vals hne
  cases vals with
  | nil => exact absurd rfl hne
  | cons v vs =>
    unfold outputContent specContent
    simp only [List.foldl_cons]
    have hv : ("" ++ v ++ " " : String) = v ++ " " := by
      rw [String.empty_append]
    rw [hv]
    exact foldl_space_aux vs v

/-- Witness for the amended C4 on a two-flow value list. -/
theorem outputArtifact_amended_witness :
    (["12.3", "4.5"] : List String) ≠ [] ∧
      outputContent ["12.3", "4.5"] = specContent ["12.3", "4.5"] ++ " " :=
  ⟨by decide, outputArtifact_amended.2 ["12.3", "4.5"] (by decide)⟩

end BulkExperiment


namespace BulkExperiment

/-! ### C9: per-flow stack installation snapshots the global default -/

/-- Setting the global default does not change any installed stack. -/
theorem stackOf_setDefault (c : SimConfig) (p : TCP_PROTOCOL) (n : NodeId) :
    stackOf (setDefaultSocketType c p) n = stackOf c n := rfl

/-- Installing on node `m` fixes `m`'s stack to the current global default and
leaves every other node unchanged. -/
theorem stackOf_installInternet (c : SimConfig) (m n : NodeId) :
    stackOf (installInternet c m) n = if m = n then some c.socketType else stackOf c n := rfl

/-- Installations performed by the loop tail never touch a node whose flow
index is below the loop's start index. -/
theorem stackOf_configureFrom_below (ps : List TCP_PROTOCOL) (s : ℕ) (c : SimConfig)
    (n : NodeId) (h : n.2 < s) :
    stackOf (configureFrom ps s c) n = stackOf c n := by
  induction ps generalizing s c with
  | nil => rfl
  | cons p ps ih =>
    simp only [configureFrom]
    rw [ih (s + 1) _ (by omega)]
    rw [stackOf_installInternet, stackOf_installInternet, stackOf_setDefault]
    have h1 : ((true, s) : NodeId) ≠ n := by
      rintro rfl
      simp at h
    have h2 : ((false, s) : NodeId) ≠ n := by
      rintro rfl
      simp at h
    rw [if_neg h1, if_neg h2]

/-- After running the Configuring loop from index `s`, the sender and receiver
nodes of relative flow `i` carry exactly the variant of the `i`-th processed
flow, regardless of the variants of the flows processed later. -/
theorem stackOf_configureFrom (ps : List TCP_PROTOCOL) (s : ℕ) (c : SimConfig) (i : ℕ)
    (h : i < ps.length) :
    stackOf (configureFrom ps s c) (false, s + i) = some (ps.getD i TCP_PROTOCOL.CUBIC) ∧
      stackOf (configureFrom ps s c) (true, s + i) = some (ps.getD i TCP_PROTOCOL.CUBIC) := by
  induction ps generalizing s c i with
  | nil => simp at h
  | cons p ps ih =>
    cases i with
    | zero =>
      simp only [configureFrom]
      constructor
      · rw [stackOf_configureFrom_below ps (s + 1) _ (false, s + 0) (by simp)]
        rw [stackOf_installInternet, if_neg (by simp), stackOf_installInternet,
          if_pos (by simp)]
        rfl
      · rw [stackOf_configureFrom_below ps (s + 1) _ (true, s + 0) (by simp)]
        rw [stackOf_installInternet, if_pos (by simp)]
        rfl
    | succ j =>
      have hj : j < ps.length := by
        simp at h
        omega
      have heq : s + (j + 1) = (s + 1) + j := by omega
      simp only [configureFrom]
      rw [heq]
      have h0 := ih (s + 1)
        (installInternet (installInternet (setDefaultSocketType c p) (false, s)) (true, s)) j hj
      simpa using h0

/-- C9: after the Configuring phase of bulk.cc:166-180, the variant installed
on sender node `i` and on receiver node `i` is exactly `mapToken flows[i]`
(BBR for the token `B`, CUBIC otherwise), for any continuation `rest` of the
per-flow variant list and any initial global default: global defaults set for
later flows never change the stack already installed for an earlier flow. -/
theorem configuring_installs_mapped_variant (flows : List Char) (rest : List TCP_PROTOCOL)
    (c : SimConfig) (i : ℕ) (h : i < flows.length) :
    stackOf (configureStacks (flows.map mapToken ++ rest) c) (false, i) =
        some (mapToken (flows.getD i 'C')) ∧
      stackOf (configureStacks (flows.map mapToken ++ rest) c) (true, i) =
        some (mapToken (flows.getD i 'C')) := by
  unfold configureStacks
  have hmaplen : i < (flows.map mapToken).length := by simpa using h
  have hlen : i < (flows.map mapToken ++ rest).length := by
    simp
    omega
  have h0 := stackOf_configureFrom (flows.map mapToken ++ rest) 0 c i hlen
  rw [Nat.zero_add] at h0
  have hg : (flows.map mapToken ++ rest).getD i TCP_PROTOCOL.CUBIC =
      mapToken (flows.getD i 'C') := by
    rw [List.getD_eq_getElem _ _ hlen, List.getElem_append_left hmaplen, List.getElem_map,
      List.getD_eq_getElem _ _ h]
  rw [hg] at h0
  exact h0

/-- Witness for C9: a BBR flow followed by a CUBIC flow and a later
re-configuration; flow 0 keeps BBR on both its nodes. -/
theorem configuring_installs_mapped_variant_witness :
    stackOf (configureStacks (['B', 'C'].map mapToken ++ [TCP_PROTOCOL.BBR])
        ⟨TCP_PROTOCOL.CUBIC, []⟩) (false, 0) = some (mapToken (['B', 'C'].getD 0 'C')) ∧
      stackOf (configureStacks (['B', 'C'].map mapToken ++ [TCP_PROTOCOL.BBR])
        ⟨TCP_PROTOCOL.CUBIC, []⟩) (true, 0) = some (mapToken (['B', 'C'].getD 0 'C')) :=
  configuring_installs_mapped_variant ['B', 'C'] [TCP_PROTOCOL.BBR]
    ⟨TCP_PROTOCOL.CUBIC, []⟩ 0 (by decide)

end BulkExperiment
